import Mathlib

/-!
Verification of the frappuccino inventory repository and menu service.

The repository layer (Go package postgre, struct inventoryRepositoryPostgres)
translates method calls into single SQL statements and maps database driver
errors to domain errors.  The service layer (Go package service, struct
menuService) validates input before delegating to the repository.

Shallow embedding conventions:
- A Go error value is modelled by the inductive type GoError.  A nil error
  is Option.none, a non-nil error is Option.some e.
- The database driver is modelled as an oracle: each repository function
  takes the outcome of its SQL statement (an Except value, or an ExecResult
  carrying the rows-affected count) as an argument, and the Lean function
  computes exactly what the Go function computes from that outcome.
- Go int is a 64-bit two complement integer: every arithmetic operation
  wraps on overflow, modelled by applying wrap64 to the result of each
  operation.  Go integer division truncates toward zero, so it is
  modelled by Int.tdiv (the most negative value divided by minus one
  wraps, which the wrap64 after the division reproduces).  Go panics on
  division by zero; a function that can reach such a division returns
  Option, with none marking the panic.
- A Go nil slice is modelled by the empty list where the distinction does
  not matter to any claim.
-/

namespace Frappuccino

/-- Model of Go error values seen by this code: the driver sentinel
sql.ErrNoRows, a pq.Error carrying an SQLSTATE code string, the domain
error values of the models package, and any other error (indexed by a
natural number so that distinct unknown errors stay distinct). -/
inductive GoError where
  | noRows
  | pqError (code : String)
  | errDuplicateInventory
  | errNegativeQuantity
  | errInvalidEnumTypeInventory
  | errNoRecord
  | errMissingFields
  | errInvalidID
  | other (n : Nat)
  deriving DecidableEq

namespace models

/-- Record scanned by the inventory queries, field order as in the Scan
calls: id, name, quantity, unit, categories. -/
structure Inventory where
  ID : Int
  Name : String
  Quantity : Int
  Unit : String
  Categories : List String
  deriving DecidableEq

/-- Row produced by the leftovers query: SELECT name, quantity. -/
structure InventoryLeftOverItem where
  Name : String
  Quantity : Int
  deriving DecidableEq

/-- Zero value of models.Inventory, returned on the error paths of
RetrieveByID. -/
def zeroInventory : Inventory :=
  { ID := 0, Name := "", Quantity := 0, Unit := "", Categories := [] }

/-- Modelled from the spec: the models package is not among the shown
files.  A menu item is a sellable product with validated required fields;
the validator checks that required fields are present. -/
structure MenuItem where
  name : String
  description : String
  deriving DecidableEq

/-- Zero value of models.MenuItem, returned on the error paths of the
service RetrieveByID. -/
def zeroMenuItem : MenuItem := { name := "", description := "" }

/-- Modelled from the spec: NewMenuItemValidator(menu).Validate() is not
among the shown files.  Per the spec, required fields must be present and
a validation failure returns a non-nil field-name-to-message map; success
returns a nil map (none). -/
def MenuItemValidator.Validate (m : MenuItem) : Option (List (String × String)) :=
  let errs :=
    (if m.name = "" then [("name", "this field is required")] else []) ++
    (if m.description = "" then [("description", "this field is required")] else [])
  if errs = [] then none else some errs

end models

/-- Two complement wraparound of a signed 64-bit integer: the unique
value congruent to n modulo 2 to the 64 that lies in the int64 range.
Models the overflow behaviour the Go specification defines for int
arithmetic on a 64-bit platform. -/
def wrap64 (n : Int) : Int := (n + 2 ^ 63) % 2 ^ 64 - 2 ^ 63

/-- Outcome of a successful sql Exec call: the rows-affected count
reported by the driver, together with the error value returned by the
RowsAffected method (nil in the normal case). -/
structure ExecResult where
  rowsAffected : Int
  rowsAffectedErr : Option GoError
  deriving DecidableEq

namespace postgre

open models

/-- Embedding of inventoryRepositoryPostgres.Insert.  The argument is the
outcome of the INSERT Exec call.  On error, a pq.Error with code 23505,
23514 or 22P02 is mapped to the corresponding domain error; any other
error is returned unchanged.  On success, nil is returned. -/
def Insert (execOutcome : Except GoError Unit) : Option GoError :=
  match execOutcome with
  | .ok _ => none
  | .error e =>
    match e with
    | .pqError code =>
      if code = "23505" then some .errDuplicateInventory
      else if code = "23514" then some .errNegativeQuantity
      else if code = "22P02" then some .errInvalidEnumTypeInventory
      else some (.pqError code)
    | _ => some e

/-- Embedding of inventoryRepositoryPostgres.RetrieveByID.  The argument
is the outcome of QueryRow(...).Scan.  sql.ErrNoRows becomes
ErrNoRecord with the zero-value Inventory; other errors pass through
with the zero-value Inventory; success returns the scanned record. -/
def RetrieveByID (scanOutcome : Except GoError Inventory) :
    Inventory × Option GoError :=
  match scanOutcome with
  | .error e =>
    if e = .noRows then (zeroInventory, some .errNoRecord)
    else (zeroInventory, some e)
  | .ok inventory => (inventory, none)

/-- Loop body of RetrieveAll: scan each row in order, stopping at the
first scan error. -/
def scanRows : List (Except GoError Inventory) → Except GoError (List Inventory)
  | [] => .ok []
  | .error e :: _ => .error e
  | .ok inventory :: rest =>
    match scanRows rest with
    | .error e => .error e
    | .ok invs => .ok (inventory :: invs)

/-- Embedding of inventoryRepositoryPostgres.RetrieveAll.  The first
argument is the outcome of the Query call, a list of per-row scan
outcomes on success; the second is the value of rows.Err() checked after
the loop.  Go returns a nil slice alongside every non-nil error, modelled
by the empty list. -/
def RetrieveAll (queryOutcome : Except GoError (List (Except GoError Inventory)))
    (rowsErr : Option GoError) : List Inventory × Option GoError :=
  match queryOutcome with
  | .error e => ([], some e)
  | .ok scans =>
    match scanRows scans with
    | .error e => ([], some e)
    | .ok inventoryAll =>
      match rowsErr with
      | some e => ([], some e)
      | none => (inventoryAll, none)

/-- Embedding of inventoryRepositoryPostgres.Update.  The argument is the
outcome of the UPDATE Exec call.  On error: sql.ErrNoRows becomes
ErrNoRecord, the three pq codes map to domain errors, anything else
passes through.  On success: a zero rows-affected count yields
ErrNoRecord, otherwise the RowsAffected error value is returned. -/
def Update (execOutcome : Except GoError ExecResult) : Option GoError :=
  match execOutcome with
  | .error e =>
    if e = .noRows then some .errNoRecord
    else
      match e with
      | .pqError code =>
        if code = "23505" then some .errDuplicateInventory
        else if code = "23514" then some .errNegativeQuantity
        else if code = "22P02" then some .errInvalidEnumTypeInventory
        else some (.pqError code)
      | _ => some e
  | .ok result =>
    if result.rowsAffected = 0 then some .errNoRecord
    else result.rowsAffectedErr

/-- Embedding of inventoryRepositoryPostgres.Delete.  The argument is the
outcome of the DELETE Exec call.  Errors pass through unchanged; on
success a zero rows-affected count yields ErrNoRecord, otherwise the
RowsAffected error value is returned. -/
def Delete (execOutcome : Except GoError ExecResult) : Option GoError :=
  match execOutcome with
  | .error e => some e
  | .ok result =>
    if result.rowsAffected = 0 then some .errNoRecord
    else result.rowsAffectedErr

/-- Embedding of inventoryRepositoryPostgres.GetLeftOvers.  The offset is
computed as (page - 1) * pageSize and totalPages as
(totalItems + pageSize - 1) / pageSize, both in Go int arithmetic: every
intermediate result wraps through wrap64 (int64 two complement overflow)
and the division truncates toward zero, panicking when pageSize is zero
(modelled by returning none).  The COUNT query outcome is consulted
before the division; the paginated query oracle receives the sort
column, the limit (pageSize) and the offset.  The result triple mirrors
the Go return values (leftovers, totalPages, error). -/
def GetLeftOvers (sortColumn : String) (page pageSize : Int)
    (countOutcome : Except GoError Int)
    (queryOutcome : String → Int → Int → Except GoError (List InventoryLeftOverItem)) :
    Option (List InventoryLeftOverItem × Int × Option GoError) :=
  let offset := wrap64 (wrap64 (page - 1) * pageSize)
  match countOutcome with
  | .error e => some ([], 0, some e)
  | .ok totalItems =>
    if pageSize = 0 then
      none
    else
      let totalPages :=
        wrap64 (Int.tdiv (wrap64 (wrap64 (totalItems + pageSize) - 1)) pageSize)
      match queryOutcome sortColumn pageSize offset with
      | .error e => some ([], 0, some e)
      | .ok leftovers => some (leftovers, totalPages, none)

/-- Semantics of QueryRow with the statement SELECT * FROM inventory
WHERE id = $1 followed by Scan: the first row whose id matches is
returned, and sql.ErrNoRows is produced when no row matches. -/
def selectWhereID (table : List Inventory) (id : Int) : Except GoError Inventory :=
  match table.find? (fun r => r.ID == id) with
  | some r => .ok r
  | none => .error .noRows

/-- Rows-affected count of an UPDATE or DELETE statement with clause
WHERE id = $n over the given table: the number of rows whose id
matches. -/
def rowsMatching (table : List Inventory) (id : Int) : Int :=
  ((table.filter (fun r => r.ID == id)).length : Int)

end postgre

namespace strconv

/-- Model of strconv.Atoi on a 64-bit platform: an optional single sign
followed by one or more ASCII digits, with the signed value required to
fit in a signed 64-bit integer; every other input yields an error
(none). -/
def Atoi (s : String) : Option Int :=
  let (neg, digits) :=
    match s.data with
    | '+' :: rest => (false, rest)
    | '-' :: rest => (true, rest)
    | cs => (false, cs)
  if digits = [] then none
  else if digits.all Char.isDigit then
    let n : Nat := digits.foldl (fun acc c => acc * 10 + (c.toNat - 48)) 0
    let v : Int := if neg then -(n : Int) else (n : Int)
    if -(2 ^ 63) ≤ v ∧ v < 2 ^ 63 then some v else none
  else none

end strconv

namespace service

open models

/-- Embedding of menuService.InsertMenu.  The repository call is an
explicit state transformer so that its invocation is observable: on a
validation failure the method returns the error map and ErrMissingFields
without touching the state; otherwise it runs the repository insert and
returns a nil map with the repository error. -/
def InsertMenu {σ : Type} (repoInsertMenuItem : σ → σ × Option GoError)
    (menu : MenuItem) (s : σ) :
    σ × Option (List (String × String)) × Option GoError :=
  match MenuItemValidator.Validate menu with
  | some errMap => (s, some errMap, some .errMissingFields)
  | none =>
    let r := repoInsertMenuItem s
    (r.1, none, r.2)

/-- Embedding of menuService.RetrieveByID: parse the id string; on
failure return the zero MenuItem and ErrInvalidID without touching the
state, otherwise delegate to the repository. -/
def RetrieveByID {σ : Type}
    (repoRetrieveByID : Int → σ → σ × MenuItem × Option GoError)
    (id : String) (s : σ) : σ × MenuItem × Option GoError :=
  match strconv.Atoi id with
  | none => (s, zeroMenuItem, some .errInvalidID)
  | some idInt => repoRetrieveByID idInt s

/-- Embedding of menuService.Update: parse the id string (ErrInvalidID
with a nil map on failure), then validate the menu item
(ErrMissingFields with the error map on failure), then delegate to the
repository update. -/
def Update {σ : Type}
    (repoUpdateMenuItem : Int → MenuItem → σ → σ × Option GoError)
    (id : String) (menuItem : MenuItem) (s : σ) :
    σ × Option (List (String × String)) × Option GoError :=
  match strconv.Atoi id with
  | none => (s, none, some .errInvalidID)
  | some idInt =>
    match MenuItemValidator.Validate menuItem with
    | some errMap => (s, some errMap, some .errMissingFields)
    | none =>
      let r := repoUpdateMenuItem idInt menuItem s
      (r.1, none, r.2)

/-- Embedding of menuService.Delete: parse the id string (ErrInvalidID on
failure), then delegate to the repository delete. -/
def Delete {σ : Type} (repoDelete : Int → σ → σ × Option GoError)
    (id : String) (s : σ) : σ × Option GoError :=
  match strconv.Atoi id with
  | none => (s, some .errInvalidID)
  | some idInt => repoDelete idInt s

end service

/-! Theorems about the repository layer. -/

open models

/-- Claim C2: a failing Insert maps driver code 23505 to
ErrDuplicateInventory, 23514 to ErrNegativeQuantity and 22P02 to
ErrInvalidEnumTypeInventory, and Update applies the same mapping. -/
theorem insert_update_pq_code_mapping :
    postgre.Insert (.error (.pqError "23505")) = some .errDuplicateInventory ∧
    postgre.Insert (.error (.pqError "23514")) = some .errNegativeQuantity ∧
    postgre.Insert (.error (.pqError "22P02")) = some .errInvalidEnumTypeInventory ∧
    postgre.Update (.error (.pqError "23505")) = some .errDuplicateInventory ∧
    postgre.Update (.error (.pqError "23514")) = some .errNegativeQuantity ∧
    postgre.Update (.error (.pqError "22P02")) = some .errInvalidEnumTypeInventory := by
  refine ⟨rfl, rfl, rfl, by decide, by decide, by decide⟩

/-- Claim C3: when no row of the table has the requested id, RetrieveByID
returns the zero-value Inventory together with ErrNoRecord. -/
theorem retrieveByID_no_record (table : List Inventory) (id : Int)
    (h : ∀ r ∈ table, r.ID ≠ id) :
    postgre.RetrieveByID (postgre.selectWhereID table id) =
      (zeroInventory, some .errNoRecord) := by
  have hfind : table.find? (fun r => r.ID == id) = none := by
    rw [List.find?_eq_none]
    intro r hr
    simpa using h r hr
  simp [postgre.RetrieveByID, postgre.selectWhereID, hfind]

/-- Witness for C3 at a concrete table and id. -/
theorem retrieveByID_no_record_witness :
    postgre.RetrieveByID (postgre.selectWhereID [zeroInventory] 5) =
      (zeroInventory, some .errNoRecord) :=
  retrieveByID_no_record [zeroInventory] 5 (by decide)

/-- Claim C4: when no row of the table has the requested id, the UPDATE
statement affects zero rows and Update returns ErrNoRecord. -/
theorem update_no_record (table : List Inventory) (id : Int)
    (raErr : Option GoError) (h : ∀ r ∈ table, r.ID ≠ id) :
    postgre.rowsMatching table id = 0 ∧
    postgre.Update (.ok ⟨postgre.rowsMatching table id, raErr⟩) =
      some .errNoRecord := by
  have hfilter : table.filter (fun r => r.ID == id) = [] := by
    rw [List.filter_eq_nil_iff]
    intro r hr
    simpa using h r hr
  refine ⟨by simp [postgre.rowsMatching, hfilter], ?_⟩
  simp [postgre.Update, postgre.rowsMatching, hfilter]

/-- Witness for C4 at a concrete table and id. -/
theorem update_no_record_witness :
    postgre.rowsMatching [zeroInventory] 5 = 0 ∧
    postgre.Update (.ok ⟨postgre.rowsMatching [zeroInventory] 5, none⟩) =
      some .errNoRecord :=
  update_no_record [zeroInventory] 5 none (by decide)

/-- Claim C10: when no row of the table has the requested id, the DELETE
statement affects zero rows and Delete returns ErrNoRecord. -/
theorem delete_no_record (table : List Inventory) (id : Int)
    (raErr : Option GoError) (h : ∀ r ∈ table, r.ID ≠ id) :
    postgre.rowsMatching table id = 0 ∧
    postgre.Delete (.ok ⟨postgre.rowsMatching table id, raErr⟩) =
      some .errNoRecord := by
  have hfilter : table.filter (fun r => r.ID == id) = [] := by
    rw [List.filter_eq_nil_iff]
    intro r hr
    simpa using h r hr
  refine ⟨by simp [postgre.rowsMatching, hfilter], ?_⟩
  simp [postgre.Delete, postgre.rowsMatching, hfilter]

/-- Witness for C10 at a concrete table and id. -/
theorem delete_no_record_witness :
    postgre.rowsMatching [zeroInventory] 5 = 0 ∧
    postgre.Delete (.ok ⟨postgre.rowsMatching [zeroInventory] 5, none⟩) =
      some .errNoRecord :=
  delete_no_record [zeroInventory] 5 none (by decide)

/-! Theorems about the service layer. -/

/-- Claim C5: when validation of a menu item fails, InsertMenu and Update
return the non-nil field-name-to-message map together with
ErrMissingFields (leaving the state untouched); when validation passes,
the returned map is nil. -/
theorem menuService_validation_map (σ : Type) (bad good : MenuItem)
    (em : List (String × String)) (idStr : String) (idInt : Int)
    (fIns : σ → σ × Option GoError)
    (fUpd : Int → MenuItem → σ → σ × Option GoError) (s : σ)
    (hid : strconv.Atoi idStr = some idInt)
    (hbad : MenuItemValidator.Validate bad = some em)
    (hgood : MenuItemValidator.Validate good = none) :
    service.InsertMenu fIns bad s = (s, some em, some .errMissingFields) ∧
    service.Update fUpd idStr bad s = (s, some em, some .errMissingFields) ∧
    (service.InsertMenu fIns good s).2.1 = none ∧
    (service.Update fUpd idStr good s).2.1 = none := by
  refine ⟨?_, ?_, ?_, ?_⟩ <;>
    simp [service.InsertMenu, service.Update, hid, hbad, hgood]

/-- Witness for C5 at concrete inputs: an empty name fails validation, a
fully populated item passes. -/
theorem menuService_validation_map_witness :
    service.InsertMenu (fun s => (s, none)) ⟨"", "tasty"⟩ (0 : Nat) =
      (0, some [("name", "this field is required")], some .errMissingFields) ∧
    service.Update (fun _ _ s => (s, none)) "5" ⟨"", "tasty"⟩ (0 : Nat) =
      (0, some [("name", "this field is required")], some .errMissingFields) ∧
    (service.InsertMenu (fun s => (s, none)) ⟨"latte", "tasty"⟩ (0 : Nat)).2.1 = none ∧
    (service.Update (fun _ _ s => (s, none)) "5" ⟨"latte", "tasty"⟩ (0 : Nat)).2.1 = none :=
  menuService_validation_map Nat ⟨"", "tasty"⟩ ⟨"latte", "tasty"⟩
    [("name", "this field is required")] "5" 5
    (fun s => (s, none)) (fun _ _ s => (s, none)) 0
    (by decide) (by decide) (by decide)

/-- Claim C6: when the id string does not parse as an integer, the
service RetrieveByID returns the zero MenuItem with ErrInvalidID, Update
returns a nil map with ErrInvalidID, and Delete returns ErrInvalidID; in
all three the state is untouched. -/
theorem menuService_invalid_id (σ : Type) (idStr : String)
    (menuItem : MenuItem)
    (fRet : Int → σ → σ × MenuItem × Option GoError)
    (fUpd : Int → MenuItem → σ → σ × Option GoError)
    (fDel : Int → σ → σ × Option GoError) (s : σ)
    (h : strconv.Atoi idStr = none) :
    service.RetrieveByID fRet idStr s = (s, zeroMenuItem, some .errInvalidID) ∧
    service.Update fUpd idStr menuItem s = (s, none, some .errInvalidID) ∧
    service.Delete fDel idStr s = (s, some .errInvalidID) := by
  refine ⟨?_, ?_, ?_⟩ <;>
    simp [service.RetrieveByID, service.Update, service.Delete, h]

/-- Witness for C6 at the concrete non-numeric id string abc. -/
theorem menuService_invalid_id_witness :
    service.RetrieveByID (fun _ s => (s, zeroMenuItem, none)) "abc" (0 : Nat) =
      (0, zeroMenuItem, some .errInvalidID) ∧
    service.Update (fun _ _ s => (s, none)) "abc" ⟨"latte", "tasty"⟩ (0 : Nat) =
      (0, none, some .errInvalidID) ∧
    service.Delete (fun _ s => (s, none)) "abc" (0 : Nat) =
      (0, some .errInvalidID) :=
  menuService_invalid_id Nat "abc" ⟨"latte", "tasty"⟩
    (fun _ s => (s, zeroMenuItem, none)) (fun _ _ s => (s, none))
    (fun _ s => (s, none)) 0 (by decide)

/-- Claim C9: on every error path of InsertMenu, Update and Delete in
which id parsing or validation fails, the method returns without running
the repository transformer, so the state is unchanged for every possible
repository implementation. -/
theorem menuService_state_unchanged_on_error (σ : Type) (s : σ)
    (badId goodId : String) (menuItem : MenuItem) (idInt : Int)
    (em : List (String × String))
    (fIns : σ → σ × Option GoError)
    (fUpd : Int → MenuItem → σ → σ × Option GoError)
    (fDel : Int → σ → σ × Option GoError)
    (hbad : strconv.Atoi badId = none)
    (hgood : strconv.Atoi goodId = some idInt)
    (hval : MenuItemValidator.Validate menuItem = some em) :
    (service.InsertMenu fIns menuItem s).1 = s ∧
    (service.Update fUpd badId menuItem s).1 = s ∧
    (service.Delete fDel badId s).1 = s ∧
    (service.Update fUpd goodId menuItem s).1 = s := by
  refine ⟨?_, ?_, ?_, ?_⟩ <;>
    simp [service.InsertMenu, service.Update, service.Delete,
      hbad, hgood, hval]

/-- Witness for C9 at concrete inputs, with repository transformers that
would change the state if they ran. -/
theorem menuService_state_unchanged_on_error_witness :
    (service.InsertMenu (fun n => (n + 1, none)) ⟨"", "tasty"⟩ (7 : Nat)).1 = 7 ∧
    (service.Update (fun _ _ n => (n + 1, none)) "abc" ⟨"", "tasty"⟩ (7 : Nat)).1 = 7 ∧
    (service.Delete (fun _ n => (n + 1, none)) "abc" (7 : Nat)).1 = 7 ∧
    (service.Update (fun _ _ n => (n + 1, none)) "5" ⟨"", "tasty"⟩ (7 : Nat)).1 = 7 :=
  menuService_state_unchanged_on_error Nat 7 "abc" "5" ⟨"", "tasty"⟩ 5
    [("name", "this field is required")]
    (fun n => (n + 1, none)) (fun _ _ n => (n + 1, none))
    (fun _ n => (n + 1, none)) (by decide) (by decide) (by decide)

/-! Pass-through of unmapped errors. -/

/-- A database error that is neither the no-rows sentinel nor a pq.Error
with one of the three mapped SQLSTATE codes. -/
def unmappedError (e : GoError) : Prop :=
  e ≠ .noRows ∧ e ≠ .pqError "23505" ∧ e ≠ .pqError "23514" ∧
    e ≠ .pqError "22P02"

/-- Claim C7: every repository operation returns an unmapped database
error to the caller unmodified, on each of its database interaction
points (for GetLeftOvers: both the COUNT query and the paginated
query). -/
theorem repository_errors_passthrough (e : GoError) (sortColumn : String)
    (page pageSize totalItems : Int) (rowsErr : Option GoError)
    (hps : pageSize ≠ 0) (h : unmappedError e) :
    postgre.Insert (.error e) = some e ∧
    postgre.RetrieveByID (.error e) = (zeroInventory, some e) ∧
    postgre.RetrieveAll (.error e) rowsErr = ([], some e) ∧
    postgre.Update (.error e) = some e ∧
    postgre.Delete (.error e) = some e ∧
    postgre.GetLeftOvers sortColumn page pageSize (.error e)
      (fun _ _ _ => .error e) = some ([], 0, some e) ∧
    postgre.GetLeftOvers sortColumn page pageSize (.ok totalItems)
      (fun _ _ _ => .error e) = some ([], 0, some e) := by
  obtain ⟨hnr, h1, h2, h3⟩ := h
  cases e with
  | noRows => exact absurd rfl hnr
  | pqError code =>
    simp only [ne_eq, GoError.pqError.injEq] at h1 h2 h3
    refine ⟨?_, ?_, ?_, ?_, ?_, ?_, ?_⟩ <;>
      simp [postgre.Insert, postgre.RetrieveByID, postgre.RetrieveAll,
        postgre.Update, postgre.Delete, postgre.GetLeftOvers, h1, h2, h3, hps]
  | errDuplicateInventory =>
    refine ⟨?_, ?_, ?_, ?_, ?_, ?_, ?_⟩ <;>
      simp [postgre.Insert, postgre.RetrieveByID, postgre.RetrieveAll,
        postgre.Update, postgre.Delete, postgre.GetLeftOvers, hps]
  | errNegativeQuantity =>
    refine ⟨?_, ?_, ?_, ?_, ?_, ?_, ?_⟩ <;>
      simp [postgre.Insert, postgre.RetrieveByID, postgre.RetrieveAll,
        postgre.Update, postgre.Delete, postgre.GetLeftOvers, hps]
  | errInvalidEnumTypeInventory =>
    refine ⟨?_, ?_, ?_, ?_, ?_, ?_, ?_⟩ <;>
      simp [postgre.Insert, postgre.RetrieveByID, postgre.RetrieveAll,
        postgre.Update, postgre.Delete, postgre.GetLeftOvers, hps]
  | errNoRecord =>
    refine ⟨?_, ?_, ?_, ?_, ?_, ?_, ?_⟩ <;>
      simp [postgre.Insert, postgre.RetrieveByID, postgre.RetrieveAll,
        postgre.Update, postgre.Delete, postgre.GetLeftOvers, hps]
  | errMissingFields =>
    refine ⟨?_, ?_, ?_, ?_, ?_, ?_, ?_⟩ <;>
      simp [postgre.Insert, postgre.RetrieveByID, postgre.RetrieveAll,
        postgre.Update, postgre.Delete, postgre.GetLeftOvers, hps]
  | errInvalidID =>
    refine ⟨?_, ?_, ?_, ?_, ?_, ?_, ?_⟩ <;>
      simp [postgre.Insert, postgre.RetrieveByID, postgre.RetrieveAll,
        postgre.Update, postgre.Delete, postgre.GetLeftOvers, hps]
  | other n =>
    refine ⟨?_, ?_, ?_, ?_, ?_, ?_, ?_⟩ <;>
      simp [postgre.Insert, postgre.RetrieveByID, postgre.RetrieveAll,
        postgre.Update, postgre.Delete, postgre.GetLeftOvers, hps]

/-- Witness for C7 at a concrete unmapped error. -/
theorem repository_errors_passthrough_witness :
    postgre.Insert (.error (.other 0)) = some (.other 0) ∧
    postgre.RetrieveByID (.error (.other 0)) = (zeroInventory, some (.other 0)) ∧
    postgre.RetrieveAll (.error (.other 0)) none = ([], some (.other 0)) ∧
    postgre.Update (.error (.other 0)) = some (.other 0) ∧
    postgre.Delete (.error (.other 0)) = some (.other 0) ∧
    postgre.GetLeftOvers "name" 2 3 (.error (.other 0))
      (fun _ _ _ => .error (.other 0)) = some ([], 0, some (.other 0)) ∧
    postgre.GetLeftOvers "name" 2 3 (.ok 7)
      (fun _ _ _ => .error (.other 0)) = some ([], 0, some (.other 0)) :=
  repository_errors_passthrough (.other 0) "name" 2 3 7 none
    (by decide) ⟨by decide, by decide, by decide, by decide⟩

/-! Pagination arithmetic. -/

/-- For a nonnegative numerator and positive denominator, the Go
expression (a + b - 1) / b with truncating integer division computes the
ceiling of the exact quotient a / b. -/
lemma ceil_eq_add_sub_one_tdiv (a b : Int) (ha : 0 ≤ a) (hb : 0 < b) :
    ⌈(a : ℚ) / (b : ℚ)⌉ = Int.tdiv (a + b - 1) b := by
  have hb0 : b ≠ 0 := ne_of_gt hb
  have hab : 0 ≤ a + b - 1 := by omega
  rw [Int.tdiv_eq_ediv hab (le_of_lt hb)]
  have hqr := Int.ediv_add_emod (a + b - 1) b
  have hr0 : 0 ≤ (a + b - 1) % b := Int.emod_nonneg _ hb0
  have hrb : (a + b - 1) % b < b := Int.emod_lt_of_pos _ hb
  have hbq : (0 : ℚ) < (b : ℚ) := by exact_mod_cast hb
  rw [Int.ceil_eq_iff]
  constructor
  · rw [lt_div_iff₀ hbq]
    have hlt : ((a + b - 1) / b - 1) * b < a := by nlinarith
    exact_mod_cast hlt
  · rw [div_le_iff₀ hbq]
    have hle : a ≤ (a + b - 1) / b * b := by nlinarith
    exact_mod_cast hle

/-- A value already inside the int64 range is unchanged by the two
complement wraparound. -/
lemma wrap64_eq_self (n : Int) (h1 : -(2 ^ 63) ≤ n) (h2 : n < 2 ^ 63) :
    wrap64 n = n := by
  unfold wrap64
  have h : (n + 2 ^ 63) % 2 ^ 64 = n + 2 ^ 63 :=
    Int.emod_eq_of_lt (by omega) (by omega)
  omega

/-- Counterexample for claim C1 as stated: the claim quantifies over
every call, but with a table of 2 rows and pageSize equal to the largest
int64 value, the Go expression totalItems + pageSize overflows and the
returned total-page count is -1, while the ceiling of
totalItems / pageSize is 1. -/
theorem getLeftOvers_pagination_counterexample :
    postgre.GetLeftOvers "name" 1 (2 ^ 63 - 1) (.ok 2) (fun _ _ _ => .ok []) =
      some ([], -1, none) ∧
    ⌈((2 : Int) : ℚ) / ((2 ^ 63 - 1 : Int) : ℚ)⌉ = 1 := by
  constructor
  · decide
  · have h := ceil_eq_add_sub_one_tdiv 2 (2 ^ 63 - 1) (by norm_num) (by norm_num)
    rw [h]
    decide

/-- Claim C1 (amended): for every call whose intermediate int arithmetic
stays inside the int64 range, that is page - 1, the product
(page - 1) * pageSize and the sum totalItems + pageSize do not overflow,
with a positive pageSize and a nonnegative totalItems row count,
GetLeftOvers consults the paginated query at offset
(page - 1) * pageSize with limit pageSize, and the returned total-page
count is the ceiling of totalItems / pageSize, which the code computes
as (totalItems + pageSize - 1) / pageSize in integer arithmetic. -/
theorem getLeftOvers_pagination (sortColumn : String)
    (page pageSize totalItems : Int)
    (leftovers : List InventoryLeftOverItem)
    (q : String → Int → Int → Except GoError (List InventoryLeftOverItem))
    (hps : 0 < pageSize) (hti : 0 ≤ totalItems)
    (hp1 : -(2 ^ 63) ≤ page - 1) (hp2 : page - 1 < 2 ^ 63)
    (ho1 : -(2 ^ 63) ≤ (page - 1) * pageSize)
    (ho2 : (page - 1) * pageSize < 2 ^ 63)
    (hsum : totalItems + pageSize < 2 ^ 63)
    (hq : q sortColumn pageSize ((page - 1) * pageSize) = .ok leftovers) :
    postgre.GetLeftOvers sortColumn page pageSize (.ok totalItems) q =
      some (leftovers, ⌈(totalItems : ℚ) / (pageSize : ℚ)⌉, none) ∧
    ⌈(totalItems : ℚ) / (pageSize : ℚ)⌉ =
      Int.tdiv (totalItems + pageSize - 1) pageSize := by
  have hceil := ceil_eq_add_sub_one_tdiv totalItems pageSize hti hps
  have hw1 : wrap64 (page - 1) = page - 1 := wrap64_eq_self _ hp1 hp2
  have hw2 : wrap64 ((page - 1) * pageSize) = (page - 1) * pageSize :=
    wrap64_eq_self _ ho1 ho2
  have hw3 : wrap64 (totalItems + pageSize) = totalItems + pageSize :=
    wrap64_eq_self _ (by omega) hsum
  have hw4 : wrap64 (totalItems + pageSize - 1) = totalItems + pageSize - 1 :=
    wrap64_eq_self _ (by omega) (by omega)
  have hqd : Int.tdiv (totalItems + pageSize - 1) pageSize =
      (totalItems + pageSize - 1) / pageSize :=
    Int.tdiv_eq_ediv (by omega) (by omega)
  have hdle : (totalItems + pageSize - 1) / pageSize ≤ totalItems + pageSize - 1 :=
    Int.ediv_le_self _ (by omega)
  have hdnn : 0 ≤ (totalItems + pageSize - 1) / pageSize :=
    Int.ediv_nonneg (by omega) (by omega)
  have hw5 : wrap64 (Int.tdiv (totalItems + pageSize - 1) pageSize) =
      Int.tdiv (totalItems + pageSize - 1) pageSize := by
    rw [hqd]
    exact wrap64_eq_self _ (by omega) (by omega)
  refine ⟨?_, hceil⟩
  simp only [postgre.GetLeftOvers, if_neg hps.ne', hw1, hw2, hw3, hw4, hw5, hq,
    hceil]

/-- Witness for C1: page 2 of size 3 over 7 rows uses offset 3 and
reports 3 total pages. -/
theorem getLeftOvers_pagination_witness :
    postgre.GetLeftOvers "name" 2 3 (.ok 7) (fun _ _ _ => .ok []) =
      some ([], ⌈((7 : Int) : ℚ) / ((3 : Int) : ℚ)⌉, none) ∧
    ⌈((7 : Int) : ℚ) / ((3 : Int) : ℚ)⌉ =
      Int.tdiv ((7 : Int) + 3 - 1) 3 :=
  getLeftOvers_pagination "name" 2 3 7 [] (fun _ _ _ => .ok [])
    (by decide) (by decide) (by decide) (by decide) (by decide) (by decide)
    (by decide) rfl

/-- Claim C8: the totalPages computation divides by pageSize without a
guard: whenever pageSize is nonzero the whole computation is total
(returns a value for every driver outcome), while a call with a zero
pageSize and a successful COUNT reaches the integer division by zero
(modelled as none). -/
theorem getLeftOvers_division_guard (sortColumn : String)
    (page pageSize totalItems : Int)
    (countOutcome : Except GoError Int)
    (q : String → Int → Int → Except GoError (List InventoryLeftOverItem))
    (hps : pageSize ≠ 0) :
    (postgre.GetLeftOvers sortColumn page pageSize countOutcome q).isSome = true ∧
    postgre.GetLeftOvers sortColumn page 0 (.ok totalItems) q = none := by
  constructor
  · cases countOutcome with
    | error e => simp [postgre.GetLeftOvers]
    | ok t =>
      simp only [postgre.GetLeftOvers, if_neg hps]
      cases q sortColumn pageSize (wrap64 (wrap64 (page - 1) * pageSize)) <;> simp
  · simp [postgre.GetLeftOvers]

/-- Witness for C8 at concrete inputs. -/
theorem getLeftOvers_division_guard_witness :
    (postgre.GetLeftOvers "name" 2 3 (.ok 7) (fun _ _ _ => .ok [])).isSome = true ∧
    postgre.GetLeftOvers "name" 2 0 (.ok 7) (fun _ _ _ => .ok []) = none :=
  getLeftOvers_division_guard "name" 2 3 7 (.ok 7) (fun _ _ _ => .ok [])
    (by decide)

end Frappuccino
